import Mathlib

set_option maxRecDepth 8000

/-!
Verification of the staged trading-signal state machine, forward predictor,
scan orchestration, and the bounded-run-gain ("三重连阳") exclusion filter
of the `baxiao/baxiaoyz` repository (`src/app.py`, `src/yz.py`).

The embedding translates the Python source directly:

* prices (`收盘价`) and percentage changes (`涨跌幅`) are modelled as exact
  rationals (the Python code uses pandas floats; all comparisons in the
  source are sign tests and threshold comparisons on decimal quantities);
* the per-day classification `红`/`绿`/`平` (`df['涨跌'].diff()` followed by
  the sign test in `analyze_strategy`) becomes the inductive `Dir`;
* the mutable loop variables of `analyze_strategy` (`position`, `entry_price`,
  `day_count`, `red_count`, `green_count`, `stage`) become the record
  `StrategyState`, and the `for idx, row in df.iterrows()` loop becomes
  the fold `runFrom`;
* Python exceptions are modelled by `Except`, absent values by `Option`.
-/

namespace Baxiaoyz

/-- Direction classification of a trading day, the `红绿` column computed in
`analyze_strategy`: `red` (`'红'`) for a positive diff, `green` (`'绿'`) for a
negative diff, `flat` (`'平'`) otherwise.  The first row's diff is `NaN` in
pandas, for which both sign tests fail, so the first row is classified
`flat`. -/
inductive Dir where
  | red
  | green
  | flat
deriving DecidableEq

/-- One raw input row of the frame handed to `analyze_strategy`: the `日期`
(date, modelled as an integer day number) and `收盘价` (close) columns. -/
structure Row where
  date : Int
  close : ℚ
deriving DecidableEq

/-- A row after the classification step at the top of `analyze_strategy`
(the `涨跌`/`红绿` columns have been derived). -/
structure CRow where
  date : Int
  close : ℚ
  dir : Dir
deriving DecidableEq

/-- Sign test applied to the diff `close[i] - close[i-1]`, the lambda in
`df['红绿'] = df['涨跌'].apply(...)`: the diff is positive iff
`prev < cur` and negative iff `cur < prev`, so the sign test is expressed
directly as the comparison of the two closes. -/
def classifyDir (prev cur : ℚ) : Dir :=
  if prev < cur then Dir.red
  else if cur < prev then Dir.green
  else Dir.flat

/-- Classification of all rows after the first, each against its
predecessor. -/
def classifyFrom (p : Row) : List Row → List CRow
  | [] => []
  | r :: rs => ⟨r.date, r.close, classifyDir p.close r.close⟩ :: classifyFrom r rs

/-- The classification phase of `analyze_strategy` (`diff` + `apply`): the
first row gets `flat` (its diff is `NaN`), every later row is classified
against its predecessor. -/
def classify : List Row → List CRow
  | [] => []
  | r :: rs => ⟨r.date, r.close, Dir.flat⟩ :: classifyFrom r rs

/-- The mutable loop state of `analyze_strategy`.  `position` is `None` or
`'持有'` in the source, hence `Option String` here. -/
structure StrategyState where
  position : Option String
  entry_price : ℚ
  day_count : ℕ
  red_count : ℕ
  green_count : ℕ
  stage : ℕ
deriving DecidableEq

/-- The loop state before the first row is consumed (`position = None`,
`entry_price = 0`, all counters `0`, `stage = 0`). -/
def initState : StrategyState :=
  { position := none, entry_price := 0, day_count := 0, red_count := 0,
    green_count := 0, stage := 0 }

/-- One appended element of the `signals` list of `analyze_strategy`
(columns `日期, 收盘价, 红绿, 信号, 持仓, 阶段, 红线计数, 绿线计数`).
`signal` is `''` when no signal fired, `position` is `'空仓'` when the
state's position is `None`. -/
structure SignalRecord where
  date : Int
  close : ℚ
  dir : Dir
  signal : String
  position : String
  stage : ℕ
  red_count : ℕ
  green_count : ℕ
deriving DecidableEq

/-- The per-row transition of `analyze_strategy`'s `elif` chain: given the
state before a row, produce the state after it and the emitted signal
(`'买入'`, `'卖出'` or none).  Each branch is a direct transcription of the
corresponding `elif stage == k and position == ...` block of the source. -/
def stepCore (s : StrategyState) (row : CRow) : StrategyState × Option String :=
  if s.stage = 0 then
    let dc := s.day_count + 1
    if 14 ≤ dc then
      ({ s with day_count := dc, position := some "持有", entry_price := row.close, stage := 1, red_count := 0 }, some "买入")
    else
      ({ s with day_count := dc }, none)
  else if s.stage = 1 ∧ s.position = some "持有" then
    if row.dir = Dir.red then
      let rc := s.red_count + 1
      if 3 ≤ rc then
        ({ s with red_count := rc, position := none, stage := 2, green_count := 0 }, some "卖出")
      else ({ s with red_count := rc }, none)
    else ({ s with red_count := 0 }, none)
  else if s.stage = 2 ∧ s.position = none then
    if row.dir = Dir.green then
      let gc := s.green_count + 1
      if 2 ≤ gc then
        ({ s with green_count := gc, position := some "持有", entry_price := row.close, stage := 3, red_count := 0 }, some "买入")
      else ({ s with green_count := gc }, none)
    else ({ s with green_count := 0 }, none)
  else if s.stage = 3 ∧ s.position = some "持有" then
    if row.dir = Dir.red then
      let rc := s.red_count + 1
      if 3 ≤ rc then
        ({ s with red_count := rc, position := none, stage := 4, green_count := 0 }, some "卖出")
      else ({ s with red_count := rc }, none)
    else ({ s with red_count := 0 }, none)
  else if s.stage = 4 ∧ s.position = none then
    if row.dir = Dir.green then
      let gc := s.green_count + 1
      if 7 ≤ gc then
        ({ s with green_count := gc, position := some "持有", entry_price := row.close, stage := 5, red_count := 0 }, some "买入")
      else ({ s with green_count := gc }, none)
    else ({ s with green_count := 0 }, none)
  else if s.stage = 5 ∧ s.position = some "持有" then
    if row.dir = Dir.red then
      let rc := s.red_count + 1
      if 7 ≤ rc then
        ({ s with red_count := rc, position := none, stage := 6, green_count := 0 }, some "卖出")
      else ({ s with red_count := rc }, none)
    else ({ s with red_count := 0 }, none)
  else if s.stage = 6 ∧ s.position = none then
    if row.dir = Dir.green then
      let gc := s.green_count + 1
      if 14 ≤ gc then
        ({ s with green_count := gc, position := some "持有", entry_price := row.close, stage := 7 }, some "买入")
      else ({ s with green_count := gc }, none)
    else ({ s with green_count := 0 }, none)
  else (s, none)

/-- The per-row transition together with the record appended to `signals`
(all record fields are read from the state *after* the update, exactly as
the `signals.append({...})` call at the end of the loop body does). -/
def step (s : StrategyState) (row : CRow) : StrategyState × SignalRecord :=
  let s' := (stepCore s row).1
  (s', { date := row.date, close := row.close, dir := row.dir,
         signal := ((stepCore s row).2).getD "",
         position := (s'.position).getD "空仓",
         stage := s'.stage, red_count := s'.red_count,
         green_count := s'.green_count })

/-- State component of `step`. -/
def stepState (s : StrategyState) (row : CRow) : StrategyState :=
  (step s row).1

/-- The loop of `analyze_strategy`, started from an arbitrary state:
one record per classified row, threading the state left to right. -/
def runFrom (s : StrategyState) : List CRow → List SignalRecord
  | [] => []
  | r :: rs => (step s r).2 :: runFrom (step s r).1 rs

/-- The loop state after consuming a list of classified rows. -/
def stateAfter (s : StrategyState) : List CRow → StrategyState
  | [] => s
  | r :: rs => stateAfter (stepState s r) rs

/-- The function `analyze_strategy` of `src/app.py`: classify the series,
then run the staged state machine over it, returning the ordered
`SignalRecord` list. -/
def analyze_strategy (rows : List Row) : List SignalRecord :=
  runFrom initState (classify rows)

/-- Projection of a record to its `(信号, 阶段)` pair. -/
def sigStage (r : SignalRecord) : String × ℕ :=
  (r.signal, r.stage)

/-- The position value the machine's loop maintains at a given stage:
`'持有'` at odd stages, `None` (displayed `'空仓'`) at even stages. -/
def posFor (st : ℕ) : Option String :=
  if st % 2 = 1 then some "持有" else none

/-- The invariant obeyed by every state reachable by `analyze_strategy`. -/
def Inv (s : StrategyState) : Prop :=
  s.position = posFor s.stage

/-- The dictionary built by `generate_prediction`.  `countdown` is a Python
`int` (it can be produced by subtractions), hence `ℤ`. -/
structure Prediction where
  stage : ℕ
  position : String
  action : String
  reason : String
  next_signal : String
  countdown : ℤ
  risk_level : String
deriving DecidableEq

/-- Body of `generate_prediction` given the last record of the result frame
(`result_df.iloc[-1]`) and the frame's length (`len(result_df)`, used only
in the stage-0 branch).  Every branch transcribes the corresponding
`elif current_stage == k and current_position == ...` block. -/
def predictionOf (last : SignalRecord) (days_passed : ℕ) : Prediction :=
  let current_stage := last.stage
  let current_position := last.position
  let red_count := last.red_count
  let green_count := last.green_count
  let current_color := last.dir
  let base : Prediction :=
    { stage := current_stage, position := current_position, action := "",
      reason := "", next_signal := "", countdown := 0, risk_level := "" }
  if current_stage = 0 then
    let days_left : ℤ := max 0 (14 - (days_passed : ℤ))
    { base with action := "等待观察", reason := s!"还需等待{days_left}天", next_signal := "首次买入", countdown := days_left, risk_level := "低" }
  else if current_stage = 1 ∧ current_position = "持有" then
    let needed : ℤ := 3 - (red_count : ℤ)
    if current_color = Dir.red then
      { base with action := "继续持有", reason := s!"已{red_count}红，再{needed}红卖出", next_signal := "卖出", countdown := needed, risk_level := if 2 ≤ red_count then "中" else "低" }
    else
      { base with action := "继续持有", reason := "等待3红卖出", next_signal := "卖出", countdown := 3, risk_level := "低" }
  else if current_stage = 2 ∧ current_position = "空仓" then
    let needed : ℤ := 2 - (green_count : ℤ)
    if current_color = Dir.green then
      { base with action := "准备买入", reason := s!"已{green_count}阴，再{needed}阴买入", next_signal := "买入", countdown := needed, risk_level := "低" }
    else
      { base with action := "等待回调", reason := "等待2阴买入", next_signal := "买入", countdown := 2, risk_level := "低" }
  else if current_stage = 3 ∧ current_position = "持有" then
    let needed : ℤ := 3 - (red_count : ℤ)
    if current_color = Dir.red then
      { base with action := "继续持有", reason := s!"已{red_count}红，再{needed}红卖出", next_signal := "卖出", countdown := needed, risk_level := if 2 ≤ red_count then "中" else "低" }
    else
      { base with action := "继续持有", reason := "等待3红卖出", next_signal := "卖出", countdown := 3, risk_level := "低" }
  else if current_stage = 4 ∧ current_position = "空仓" then
    let needed : ℤ := 7 - (green_count : ℤ)
    if current_color = Dir.green then
      { base with action := "准备买入", reason := s!"已{green_count}阴，再{needed}阴买入", next_signal := "买入", countdown := needed, risk_level := "低" }
    else
      { base with action := "等待回调", reason := "等待7阴买入", next_signal := "买入", countdown := 7, risk_level := "低" }
  else if current_stage = 5 ∧ current_position = "持有" then
    let needed : ℤ := 7 - (red_count : ℤ)
    if current_color = Dir.red then
      { base with action := "继续持有", reason := s!"已{red_count}阳，再{needed}阳卖出", next_signal := "卖出", countdown := needed, risk_level := if 5 ≤ red_count then "高" else "中" }
    else
      { base with action := "继续持有", reason := "等待7阳卖出", next_signal := "卖出", countdown := 7, risk_level := "中" }
  else if current_stage = 6 ∧ current_position = "空仓" then
    let needed : ℤ := 14 - (green_count : ℤ)
    if current_color = Dir.green then
      { base with action := "准备买入", reason := s!"已{green_count}阴，再{needed}阴买入", next_signal := "最后买入", countdown := needed, risk_level := "低" }
    else
      { base with action := "等待回调", reason := "等待14阴买入", next_signal := "最后买入", countdown := 14, risk_level := "低" }
  else if current_stage = 7 then
    { base with action := "持有", reason := "策略完成", next_signal := "无", countdown := 0, risk_level := "自定义" }
  else base

/-- The function `generate_prediction` of `src/app.py`.  It reads
`result_df.iloc[-1]`, which raises on an empty frame, hence the `Option`:
`none` models the `IndexError` of the empty case, and otherwise the
prediction is a pure function of the last record and the frame length. -/
def generate_prediction (result : List SignalRecord) : Option Prediction :=
  (result.getLast?).map fun last => predictionOf last result.length

/-- The trailing `n` elements of a list, i.e. pandas `tail(n)` /
the numpy slice `[-n:]` (the whole list when it is shorter than `n`). -/
def tailN (n : ℕ) (l : List α) : List α :=
  l.drop (l.length - n)

/-- Structured form of the message string returned by
`check_three_level_continuous_yang`: `notEnoughFive` is `"数据不足5天"`,
`notEnoughData` is `"数据不足"`, `rejected len cum limit` is
`f"{len}连阳累计涨幅 {cum:.2%} > {limit:.0%}限制"`, and `passed` is
`"三重连阳判定通过"`. -/
inductive YangMsg where
  | notEnoughFive
  | notEnoughData
  | rejected (runLength : ℕ) (cum limit : ℚ)
  | passed
deriving DecidableEq

/-- The `for length, limit in [(7, 0.25), (6, 0.20), (5, 0.15)]` loop of
`check_three_level_continuous_yang`: for each pair, if enough days are
present and the trailing `runLength` multipliers are all strictly greater
than `1`, compare the compounded return against the cap and reject on
exceedance; otherwise fall through to the next (shorter) pair. -/
def yangLoop (multipliers : List ℚ) : List (ℕ × ℚ) → Bool × YangMsg
  | [] => (true, YangMsg.passed)
  | (runLength, limit) :: rest =>
    if runLength ≤ multipliers.length then
      let segment := tailN runLength multipliers
      if segment.all (fun x => 1 < x) then
        if limit < segment.prod - 1 then
          (false, YangMsg.rejected runLength (segment.prod - 1) limit)
        else yangLoop multipliers rest
      else yangLoop multipliers rest
    else yangLoop multipliers rest

/-- The function `check_three_level_continuous_yang` of `src/yz.py`, as a
function of the chronologically ordered `涨跌幅` (daily percentage change)
column of the frame.  It takes the last 10 days, converts each percentage
to the multiplier `1 + pct/100`, and runs the three `(runLength, cap)`
pairs longest first. -/
def check_three_level_continuous_yang (pcts : List ℚ) : Bool × YangMsg :=
  if pcts.length < 5 then (true, YangMsg.notEnoughFive)
  else
    let recent := tailN 10 pcts
    if recent.length < 5 then (true, YangMsg.notEnoughData)
    else
      let multipliers := recent.map (fun p => p / 100 + 1)
      yangLoop multipliers [(7, 1/4), (6, 1/5), (5, 3/20)]

/-- The function `process_single_stock` of `src/app.py`, abstracted over the
body of its `try` block.  The body (data fetch, `analyze_strategy`,
`generate_prediction`, filter test) is a function from the stock to
`Except` — `Except.error` models the body raising — returning `some` result
when the stock passes the filter and `none` otherwise (insufficient data or
filter mismatch).  The bare `except: pass / return None` of the source
turns a raised exception into `none`. -/
def process_single_stock {σ R : Type} (body : σ → Except String (Option R))
    (stock : σ) : Option R :=
  match body stock with
  | Except.error _ => none
  | Except.ok r => r

/-- The values the scan loop of `src/app.py` accumulates and reports:
the `results` list (non-`None` returns, appended under the lock), the
`completed` counter (incremented once per finished future) and
`total_stocks` (the number of submitted stocks). -/
structure ScanOutput (R : Type) where
  results : List R
  completed : ℕ
  total_stocks : ℕ
deriving DecidableEq

/-- The `ThreadPoolExecutor` scan loop of `src/app.py` (lines 415–435):
submit `process_single_stock` for every stock, collect the non-`None`
results and count completions.  The thread pool's completion order is
abstracted to submission order here; the claims under verification are
about the collected values and the counters, none of which depend on the
collection order. -/
def run_scan {σ R : Type} (body : σ → Except String (Option R))
    (stocks : List σ) : ScanOutput R :=
  { results := stocks.filterMap (process_single_stock body),
    completed := stocks.length,
    total_stocks := stocks.length }

/-- The number of stocks whose evaluation body raised (and was silently
swallowed by `process_single_stock`'s bare `except`).  The source never
computes this quantity; it is defined here to state that fact. -/
def silent_failures {σ R : Type} (body : σ → Except String (Option R))
    (stocks : List σ) : ℕ :=
  stocks.countP fun stock =>
    match body stock with
    | Except.error _ => true
    | Except.ok _ => false

/-- Concrete input data: build a row list from a close series, dating the
rows 1, 2, 3, …. -/
def mkRows (cs : List ℚ) : List Row :=
  cs.enum.map fun p => ⟨(p.1 : Int) + 1, p.2⟩

/-- Concrete close series driving the machine through all eight stages:
13 flat days, the day-14 buy, 3 up days (sell), 2 down days (buy),
3 up days (sell), 7 down days (buy), 7 up days (sell), 14 down days
(final buy, stage 7), then two extra days. -/
def wCloses : List ℚ :=
  [10, 10, 10, 10, 10, 10, 10, 10, 10, 10, 10, 10, 10, 10,
   11, 12, 13, 12, 11, 12, 13, 14, 13, 12, 11, 10, 9, 8, 7,
   8, 9, 10, 11, 12, 13, 14, 13, 12, 11, 10, 9, 8, 7, 6, 5, 4, 3, 2, 1, 0,
   5, 5]

/-- The 52-row series built from `wCloses`. -/
def wRows : List Row :=
  mkRows wCloses

/-- Concrete 30-day series of the shape described by the engineered-series
test: 14 flat days, 3 up days, 2 down days, 11 flat days. -/
def wCloses30 : List ℚ :=
  [10, 10, 10, 10, 10, 10, 10, 10, 10, 10, 10, 10, 10, 10,
   11, 12, 13, 12, 11,
   11, 11, 11, 11, 11, 11, 11, 11, 11, 11, 11]

/-- The 30-row engineered series. -/
def wRows30 : List Row :=
  mkRows wCloses30

/-- A 5-row constant series (shorter than 14 rows). -/
def wRows5 : List Row :=
  mkRows [10, 10, 10, 10, 10]

/-- A 16-row constant series (at least 14 rows). -/
def wRows16 : List Row :=
  mkRows [10, 10, 10, 10, 10, 10, 10, 10, 10, 10, 10, 10, 10, 10, 10, 10]

/-- Seven strictly positive daily percentage changes whose compounded
return is exactly 30 %: six days of +1 % followed by one day chosen so the
product of multipliers is exactly 13/10. -/
def wYangPcts : List ℚ :=
  [1, 1, 1, 1, 1, 1, 23847984939900 / 1061520150601]

/-- Seven daily percentage changes whose 7-day run is broken by a final
negative day. -/
def wYangBroken : List ℚ :=
  [1, 1, 1, 1, 1, 1, -1]

/-- Ten stock codes for the scan-orchestrator scenarios. -/
def wStocks : List ℕ :=
  [0, 1, 2, 3, 4, 5, 6, 7, 8, 9]

/-- Evaluation body in which the evaluator of stock 0 raises and every
other stock evaluates successfully to a matching result. -/
def wBodyRaises : ℕ → Except String (Option ℕ) :=
  fun stock => if stock = 0 then Except.error "fetch failed" else Except.ok (some stock)

/-- Evaluation body in which no evaluator raises, stock 0 simply fails the
filter (returns `None`), and every other stock matches. -/
def wBodyFiltered : ℕ → Except String (Option ℕ) :=
  fun stock => if stock = 0 then Except.ok none else Except.ok (some stock)

/-- A 3-row series whose dates are not monotonically increasing. -/
def wRowsNonMono : List Row :=
  [⟨5, 10⟩, ⟨3, 11⟩, ⟨4, 9⟩]

/-! ## Basic facts about the loop -/

theorem length_runFrom (s : StrategyState) (l : List CRow) :
    (runFrom s l).length = l.length := by
  induction l generalizing s with
  | nil => rfl
  | cons r rs ih => simp [runFrom, ih]

theorem runFrom_append (s : StrategyState) (l₁ l₂ : List CRow) :
    runFrom s (l₁ ++ l₂) = runFrom s l₁ ++ runFrom (stateAfter s l₁) l₂ := by
  induction l₁ generalizing s with
  | nil => rfl
  | cons r rs ih => simp [runFrom, stateAfter, stepState, ih]

theorem stateAfter_append (s : StrategyState) (l₁ l₂ : List CRow) :
    stateAfter s (l₁ ++ l₂) = stateAfter (stateAfter s l₁) l₂ := by
  induction l₁ generalizing s with
  | nil => rfl
  | cons r rs ih => simp [stateAfter, ih]

theorem runFrom_getElem? (s : StrategyState) (l : List CRow) (n : ℕ) :
    (runFrom s l)[n]? = (l[n]?).map fun r => (step (stateAfter s (l.take n)) r).2 := by
  induction l generalizing s n with
  | nil => simp [runFrom]
  | cons r rs ih =>
    cases n with
    | zero => simp [runFrom, stateAfter]
    | succ n => simp [runFrom, stateAfter, stepState, ih]

theorem classifyFrom_length (p : Row) (rows : List Row) :
    (classifyFrom p rows).length = rows.length := by
  induction rows generalizing p with
  | nil => rfl
  | cons r rs ih => simp [classifyFrom, ih]

theorem classify_length (rows : List Row) :
    (classify rows).length = rows.length := by
  cases rows with
  | nil => rfl
  | cons r rs => simp [classify, classifyFrom_length]

theorem classifyFrom_map_date (p : Row) (rows : List Row) :
    (classifyFrom p rows).map CRow.date = rows.map Row.date := by
  induction rows generalizing p with
  | nil => rfl
  | cons r rs ih => simp [classifyFrom, ih]

theorem classify_map_date (rows : List Row) :
    (classify rows).map CRow.date = rows.map Row.date := by
  cases rows with
  | nil => rfl
  | cons r rs => simp [classify, classifyFrom_map_date]

/-- At stage 7 and beyond, no `elif` branch of the loop body matches: the
state is unchanged and no signal is emitted. -/
theorem stepCore_of_ge7 (s : StrategyState) (r : CRow) (h : 7 ≤ s.stage) :
    stepCore s r = (s, none) := by
  have h0 : ¬ s.stage = 0 := by omega
  have h1 : ¬ (s.stage = 1 ∧ s.position = some "持有") := fun hc => absurd hc.1 (by omega)
  have h2 : ¬ (s.stage = 2 ∧ s.position = none) := fun hc => absurd hc.1 (by omega)
  have h3 : ¬ (s.stage = 3 ∧ s.position = some "持有") := fun hc => absurd hc.1 (by omega)
  have h4 : ¬ (s.stage = 4 ∧ s.position = none) := fun hc => absurd hc.1 (by omega)
  have h5 : ¬ (s.stage = 5 ∧ s.position = some "持有") := fun hc => absurd hc.1 (by omega)
  have h6 : ¬ (s.stage = 6 ∧ s.position = none) := fun hc => absurd hc.1 (by omega)
  simp only [stepCore, if_neg h0, if_neg h1, if_neg h2, if_neg h3, if_neg h4,
    if_neg h5, if_neg h6]

/-- The machine's position/stage invariant is preserved by every step. -/
theorem inv_stepState (s : StrategyState) (r : CRow) (h : Inv s) :
    Inv (stepState s r) := by
  obtain ⟨pos, ep, dc, rc, gc, st⟩ := s
  simp only [Inv, posFor] at h ⊢
  rcases st with _ | _ | _ | _ | _ | _ | _ | st
  · norm_num at h
    subst h
    by_cases hdc : 14 ≤ dc + 1 <;> simp [stepState, step, stepCore, hdc]
  · norm_num at h
    subst h
    by_cases hd : r.dir = Dir.red
    · by_cases hn : 3 ≤ rc + 1 <;> simp [stepState, step, stepCore, hd, hn]
    · simp [stepState, step, stepCore, hd]
  · norm_num at h
    subst h
    by_cases hd : r.dir = Dir.green
    · by_cases hn : 2 ≤ gc + 1 <;> simp [stepState, step, stepCore, hd, hn]
    · simp [stepState, step, stepCore, hd]
  · norm_num at h
    subst h
    by_cases hd : r.dir = Dir.red
    · by_cases hn : 3 ≤ rc + 1 <;> simp [stepState, step, stepCore, hd, hn]
    · simp [stepState, step, stepCore, hd]
  · norm_num at h
    subst h
    by_cases hd : r.dir = Dir.green
    · by_cases hn : 7 ≤ gc + 1 <;> simp [stepState, step, stepCore, hd, hn]
    · simp [stepState, step, stepCore, hd]
  · norm_num at h
    subst h
    by_cases hd : r.dir = Dir.red
    · by_cases hn : 7 ≤ rc + 1 <;> simp [stepState, step, stepCore, hd, hn]
    · simp [stepState, step, stepCore, hd]
  · norm_num at h
    subst h
    by_cases hd : r.dir = Dir.green
    · by_cases hn : 14 ≤ gc + 1 <;> simp [stepState, step, stepCore, hd, hn]
    · simp [stepState, step, stepCore, hd]
  · have hc := stepCore_of_ge7 ⟨pos, ep, dc, rc, gc, st + 7⟩ r (Nat.le_add_left 7 st)
    simpa [stepState, step, hc] using h

theorem inv_initState : Inv initState := by
  simp [Inv, initState, posFor]

theorem inv_stateAfter (s : StrategyState) (l : List CRow) (h : Inv s) :
    Inv (stateAfter s l) := by
  induction l generalizing s with
  | nil => exact h
  | cons r rs ih => exact ih _ (inv_stepState s r h)

theorem stateAfter_of_stage7 (s : StrategyState) (l : List CRow) (h : s.stage = 7) :
    stateAfter s l = s := by
  induction l with
  | nil => rfl
  | cons r rs ih =>
    have hc := stepCore_of_ge7 s r (by omega)
    simp [stateAfter, stepState, step, hc, ih]

/-- While the machine is at stage 0 and the day counter cannot reach 14,
every processed row yields an empty signal at stage 0, and the state only
advances its day counter — once per row, whatever the rows' dates and
directions are. -/
theorem runFrom_stage0 (l : List CRow) (s : StrategyState) (h0 : s.stage = 0)
    (h : s.day_count + l.length ≤ 13) :
    (runFrom s l).map sigStage = List.replicate l.length ("", 0) ∧
    stateAfter s l = { s with day_count := s.day_count + l.length } := by
  induction l generalizing s with
  | nil => exact ⟨rfl, by simp [stateAfter]⟩
  | cons r rs ih =>
    have hc : stepCore s r = ({ s with day_count := s.day_count + 1 }, none) := by
      rw [stepCore, if_pos h0, if_neg (by simp at h; omega : ¬ 14 ≤ s.day_count + 1)]
    have hlen : s.day_count + 1 + rs.length ≤ 13 := by simp at h; omega
    obtain ⟨ih1, ih2⟩ := ih { s with day_count := s.day_count + 1 } (by simpa using h0) hlen
    rw [h0] at ih1 ih2
    refine ⟨?_, ?_⟩
    · simp [runFrom, step, hc, sigStage, ih1, h0, List.replicate_succ]
    · simp [stateAfter, stepState, step, hc, ih2, h0, List.length_cons]
      omega

/-- While the machine is at stage 3 (holding) and only non-up days arrive,
every processed row yields an empty signal at stage 3. -/
theorem runFrom_stage3 (l : List CRow) (s : StrategyState) (h3 : s.stage = 3)
    (hpos : s.position = some "持有") (hd : ∀ r ∈ l, r.dir ≠ Dir.red) :
    (runFrom s l).map sigStage = List.replicate l.length ("", 3) := by
  induction l generalizing s with
  | nil => rfl
  | cons r rs ih =>
    have hr : r.dir ≠ Dir.red := hd r (List.mem_cons_self r rs)
    have hc : stepCore s r = ({ s with red_count := 0 }, none) := by
      simp [stepCore, h3, hpos, hr]
    have ihr := ih { s with red_count := 0 } (by simpa using h3) (by simpa using hpos)
      (fun x hx => hd x (List.mem_cons_of_mem r hx))
    rw [h3] at ihr
    simp [runFrom, step, hc, sigStage, ihr, h3, List.replicate_succ]

/-- If one element of the list maps to `none`, `filterMap` strictly
shrinks it. -/
theorem length_filterMap_lt {α β : Type} (f : α → Option β) (l : List α) (a : α)
    (ha : a ∈ l) (hf : f a = none) : (l.filterMap f).length < l.length := by
  induction l with
  | nil => cases ha
  | cons x xs ih =>
    rcases List.mem_cons.mp ha with rfl | hmem
    · have := List.length_filterMap_le f xs
      simp [List.filterMap_cons, hf]
      omega
    · cases hfx : f x with
      | none =>
        have := ih hmem
        simp [List.filterMap_cons, hfx]
        omega
      | some b =>
        have := ih hmem
        simp [List.filterMap_cons, hfx]
        omega

/-- Two row lists with the same dates and closes are equal. -/
theorem rows_eq_of_proj (s t : List Row) (hd : s.map Row.date = t.map Row.date)
    (hc : s.map Row.close = t.map Row.close) : s = t := by
  induction s generalizing t with
  | nil =>
    cases t with
    | nil => rfl
    | cons u us => simp at hd
  | cons r rs ih =>
    cases t with
    | nil => simp at hd
    | cons u us =>
      simp only [List.map_cons, List.cons.injEq] at hd hc
      have h1 : r = u := by
        cases r; cases u; simp_all
      simp [h1, ih us hd.2 hc.2]

/-- The tail of the `(runLength, cap)` loop can only reject with one of the
run lengths that actually occurs among the remaining pairs. -/
theorem yangLoop_ne_rejected (m : List ℚ) (pairs : List (ℕ × ℚ)) (n : ℕ)
    (hp : ∀ pr ∈ pairs, pr.1 ≠ n) (c lim : ℚ) :
    (yangLoop m pairs).2 ≠ YangMsg.rejected n c lim := by
  induction pairs with
  | nil => simp [yangLoop]
  | cons pr rest ih =>
    obtain ⟨len, limit⟩ := pr
    have hlen : len ≠ n := hp (len, limit) (List.mem_cons_self _ _)
    have hrest : ∀ pr ∈ rest, pr.1 ≠ n := fun x hx => hp x (List.mem_cons_of_mem _ hx)
    simp only [yangLoop]
    split_ifs with h1 h2 h3
    · intro heq
      rw [YangMsg.rejected.injEq] at heq
      exact hlen heq.1
    · exact ih hrest
    · exact ih hrest
    · exact ih hrest

theorem tailN_length {α : Type} (n : ℕ) (l : List α) :
    (tailN n l).length = min n l.length := by
  simp [tailN]
  omega

theorem tailN_map {α β : Type} (f : α → β) (n : ℕ) (l : List α) :
    tailN n (l.map f) = (tailN n l).map f := by
  simp [tailN, List.map_drop]

theorem tailN_tailN {α : Type} {n m : ℕ} (h : n ≤ m) (l : List α) :
    tailN n (tailN m l) = tailN n l := by
  simp only [tailN, List.drop_drop, List.length_drop]
  congr 1
  omega

/-! ## The claims -/

/-- C3: in every run-counting stage (1–6), a flat day is processed by the
`else` arm of the stage's branch exactly like an opposite-direction day:
the run counter the stage is waiting on is reset to 0, no signal is
emitted, the stage does not advance, and the other stage's counter is left
untouched. -/
theorem C3_flat_resets_counter (s : StrategyState) (rf ro : CRow)
    (hlo : 1 ≤ s.stage) (hhi : s.stage ≤ 6) (hpos : s.position = posFor s.stage)
    (hf : rf.dir = Dir.flat)
    (ho : ro.dir = (if s.stage % 2 = 1 then Dir.green else Dir.red)) :
    (step s rf).1 = (step s ro).1 ∧
    (step s rf).1 =
      (if s.stage % 2 = 1 then { s with red_count := 0 }
       else { s with green_count := 0 }) ∧
    (step s rf).2.signal = "" ∧ (step s ro).2.signal = "" ∧
    (s.stage % 2 = 1 →
      (step s rf).1.green_count = s.green_count ∧ (step s rf).1.stage = s.stage) ∧
    (s.stage % 2 = 0 →
      (step s rf).1.red_count = s.red_count ∧ (step s rf).1.stage = s.stage) := by
  obtain ⟨pos, ep, dc, rc, gc, st⟩ := s
  simp only [posFor] at hpos
  simp only at hlo hhi ho ⊢
  interval_cases st <;>
    (norm_num at hpos ho; subst hpos; simp [step, stepCore, hf, ho])

/-- C3 witness: a concrete stage-1 holding state, a flat day and a down
day. -/
theorem C3_flat_resets_counter_witness :
    (step ⟨some "持有", 10, 14, 1, 0, 1⟩ ⟨20, 10, Dir.flat⟩).1 =
      (step ⟨some "持有", 10, 14, 1, 0, 1⟩ ⟨20, 9, Dir.green⟩).1 ∧
    (step ⟨some "持有", 10, 14, 1, 0, 1⟩ ⟨20, 10, Dir.flat⟩).1 =
      ⟨some "持有", 10, 14, 0, 0, 1⟩ ∧
    (step ⟨some "持有", 10, 14, 1, 0, 1⟩ ⟨20, 10, Dir.flat⟩).2.signal = "" ∧
    (step ⟨some "持有", 10, 14, 1, 0, 1⟩ ⟨20, 9, Dir.green⟩).2.signal = "" := by
  have h := C3_flat_resets_counter ⟨some "持有", 10, 14, 1, 0, 1⟩
    ⟨20, 10, Dir.flat⟩ ⟨20, 9, Dir.green⟩ (by decide) (by decide) rfl rfl rfl
  exact ⟨h.1, by simpa using h.2.1, h.2.2.1, h.2.2.2.1⟩

/-- C4: for a terminal record at any stage 1–6 (with the position the
machine maintains at that stage), the predicted countdown is
`threshold - runCounter` when the last day's direction is the one the
stage awaits, and the full threshold otherwise (3 for stages 1 and 3, 2
for stage 2, 7 for stages 4 and 5, 14 for stage 6). -/
theorem C4_countdown_formula (rs : List SignalRecord) (r : SignalRecord)
    (hlast : rs.getLast? = some r) (h1 : 1 ≤ r.stage) (h6 : r.stage ≤ 6)
    (hpos : r.position = (if r.stage % 2 = 1 then "持有" else "空仓")) :
    ∃ p, generate_prediction rs = some p ∧
      p.countdown =
        (let thr : ℤ :=
           if r.stage = 1 ∨ r.stage = 3 then 3
           else if r.stage = 2 then 2
           else if r.stage ≤ 5 then 7 else 14
         let cnt : ℤ :=
           if r.stage % 2 = 1 then (r.red_count : ℤ) else (r.green_count : ℤ)
         let awaited : Dir := if r.stage % 2 = 1 then Dir.red else Dir.green
         if r.dir = awaited then thr - cnt else thr) := by
  refine ⟨predictionOf r rs.length, by simp [generate_prediction, hlast], ?_⟩
  obtain ⟨d, c, dir, sig, pos, st, rc, gc⟩ := r
  simp only at h1 h6 hpos ⊢
  interval_cases st <;> norm_num at hpos <;> subst hpos <;>
    cases dir <;> simp [predictionOf]

/-- C4 witness: a stage-1 holding record with 2 up days counted and an up
day last — the countdown is 3 − 2 = 1. -/
theorem C4_countdown_formula_witness :
    ∃ p, generate_prediction [⟨1, 10, Dir.red, "", "持有", 1, 2, 0⟩] = some p ∧
      p.countdown = 1 := by
  have h := C4_countdown_formula [⟨1, 10, Dir.red, "", "持有", 1, 2, 0⟩]
    ⟨1, 10, Dir.red, "", "持有", 1, 2, 0⟩ rfl (by decide) (by decide) rfl
  simpa using h

/-- C5: the bounded-run-gain exclusion filter rejects a series whose
trailing 7 daily percentage changes are all strictly positive and compound
to exactly 30 %, reporting the rejection through the longest `(runLength,
cap)` pair `(7, 25 %)` — whatever the shorter sub-windows would do — and a
trailing 7-day window containing any non-positive day can never trigger
that pair. -/
theorem C5_bounded_run_gain :
    (∀ pcts : List ℚ, 7 ≤ pcts.length →
      (∀ p ∈ tailN 7 pcts, 0 < p) →
      ((tailN 7 pcts).map (fun p => p / 100 + 1)).prod - 1 = 3 / 10 →
      check_three_level_continuous_yang pcts =
        (false, YangMsg.rejected 7 (3 / 10) (1 / 4))) ∧
    (∀ pcts : List ℚ, (∃ p ∈ tailN 7 pcts, p ≤ 0) → ∀ c lim : ℚ,
      (check_three_level_continuous_yang pcts).2 ≠ YangMsg.rejected 7 c lim) := by
  have hseg : ∀ pcts : List ℚ,
      tailN 7 ((tailN 10 pcts).map (fun p => p / 100 + 1)) =
        (tailN 7 pcts).map (fun p => p / 100 + 1) := by
    intro pcts
    rw [tailN_map, tailN_tailN (by norm_num)]
  constructor
  · intro pcts hlen hpos hprod
    have h5 : ¬ pcts.length < 5 := by omega
    have h5' : ¬ (tailN 10 pcts).length < 5 := by
      rw [tailN_length]
      omega
    have h7 : 7 ≤ ((tailN 10 pcts).map (fun p => p / 100 + 1)).length := by
      rw [List.length_map, tailN_length]
      omega
    have hall : ((tailN 7 ((tailN 10 pcts).map (fun p => p / 100 + 1))).all
        (fun x => 1 < x)) = true := by
      rw [hseg, List.all_eq_true]
      rintro x hx
      rw [List.mem_map] at hx
      obtain ⟨p, hp, rfl⟩ := hx
      have hp0 := hpos p hp
      have : 0 < p / 100 := by positivity
      simp only [decide_eq_true_eq]
      linarith
    have hprod' : (tailN 7 ((tailN 10 pcts).map (fun p => p / 100 + 1))).prod - 1
        = 3 / 10 := by
      rw [hseg]
      exact hprod
    simp only [check_three_level_continuous_yang, if_neg h5, if_neg h5', yangLoop,
      if_pos h7, hall, if_pos, hprod']
    rw [if_pos (by norm_num : (1 : ℚ) / 4 < 3 / 10)]
  · intro pcts hex c lim
    obtain ⟨p, hp, hple⟩ := hex
    by_cases h5 : pcts.length < 5
    · simp only [check_three_level_continuous_yang, if_pos h5]
      intro hcon
      exact YangMsg.noConfusion hcon
    · have h5' : ¬ (tailN 10 pcts).length < 5 := by
        rw [tailN_length]
        omega
      have hrest : ∀ pr ∈ [((6 : ℕ), (1 : ℚ) / 5), ((5 : ℕ), (3 : ℚ) / 20)],
          pr.1 ≠ 7 := by
        intro pr hpr
        rcases List.mem_cons.mp hpr with rfl | hpr
        · norm_num
        · rcases List.mem_cons.mp hpr with rfl | hpr
          · norm_num
          · cases hpr
      simp only [check_three_level_continuous_yang, if_neg h5, if_neg h5']
      by_cases h7 : 7 ≤ ((tailN 10 pcts).map (fun p => p / 100 + 1)).length
      · have hall : ((tailN 7 ((tailN 10 pcts).map (fun p => p / 100 + 1))).all
            (fun x => 1 < x)) = false := by
          rw [hseg, List.all_eq_false]
          refine ⟨p / 100 + 1, List.mem_map.mpr ⟨p, hp, rfl⟩, ?_⟩
          simp only [decide_eq_true_eq, not_lt]
          have : p / 100 ≤ 0 := by
            apply div_nonpos_of_nonpos_of_nonneg hple
            norm_num
          linarith
        simp only [yangLoop, if_pos h7, hall, Bool.false_eq_true, if_false]
        exact yangLoop_ne_rejected _ _ 7 hrest c lim
      · simp only [yangLoop, if_neg h7]
        exact yangLoop_ne_rejected _ _ 7 hrest c lim

/-- C5 witness: seven days of strictly positive changes compounding to
exactly 30 % are rejected through the `(7, 25 %)` pair, and the same
series with its last day negative cannot be rejected through that pair. -/
theorem C5_bounded_run_gain_witness :
    check_three_level_continuous_yang wYangPcts =
      (false, YangMsg.rejected 7 (3 / 10) (1 / 4)) ∧
    (check_three_level_continuous_yang wYangBroken).2 ≠
      YangMsg.rejected 7 (3 / 10) (1 / 4) := by
  constructor
  · apply C5_bounded_run_gain.1 wYangPcts (by norm_num [wYangPcts])
    · intro p hp
      simp only [wYangPcts, tailN] at hp
      norm_num at hp
      rcases hp with rfl | rfl <;> norm_num
    · simp only [wYangPcts, tailN]
      norm_num
  · apply C5_bounded_run_gain.2 wYangBroken
    refine ⟨-1, ?_, by norm_num⟩
    simp [wYangBroken, tailN]

/-- C6 counterexample: the scan output carries no failure counter.  A
universe of 10 stocks in which stock 0's evaluator raises produces exactly
the same `ScanOutput` as one in which stock 0 merely fails the filter, so
the claimed "failure counter of 1" is not reported anywhere in the scan's
output (the two scenarios' silent-failure counts are 1 and 0). -/
theorem C6_counterexample :
    run_scan wBodyRaises wStocks = run_scan wBodyFiltered wStocks ∧
    silent_failures wBodyRaises wStocks = 1 ∧
    silent_failures wBodyFiltered wStocks = 0 := by
  decide

/-- C6 (amended): when the evaluation body of one stock raises, that stock
yields `None`, every other stock is still evaluated and its successful
result collected, the completed and total counters still cover the whole
universe, and the result list is strictly smaller than the universe; but
no separate failure counter is reported. -/
theorem C6_failure_swallowed {σ R : Type} (body : σ → Except String (Option R))
    (stocks : List σ) (s₀ : σ) (e : String)
    (hmem : s₀ ∈ stocks) (herr : body s₀ = Except.error e) :
    process_single_stock body s₀ = none ∧
    (run_scan body stocks).total_stocks = stocks.length ∧
    (run_scan body stocks).completed = stocks.length ∧
    (run_scan body stocks).results.length < stocks.length ∧
    (∀ s r, s ∈ stocks → body s = Except.ok (some r) →
      r ∈ (run_scan body stocks).results) := by
  have hnone : process_single_stock body s₀ = none := by
    simp [process_single_stock, herr]
  refine ⟨hnone, rfl, rfl, ?_, ?_⟩
  · exact length_filterMap_lt _ stocks s₀ hmem hnone
  · intro s r hs hr
    exact List.mem_filterMap.mpr ⟨s, hs, by simp [process_single_stock, hr]⟩

/-- C6 witness: with 10 stocks submitted and stock 0's evaluator raising,
stock 0 yields no result, the total stays 10, at most 9 results are
collected, and stock 5's result is still collected. -/
theorem C6_failure_swallowed_witness :
    process_single_stock wBodyRaises 0 = none ∧
    (run_scan wBodyRaises wStocks).total_stocks = 10 ∧
    (run_scan wBodyRaises wStocks).completed = 10 ∧
    (run_scan wBodyRaises wStocks).results.length < 10 ∧
    5 ∈ (run_scan wBodyRaises wStocks).results := by
  have h := C6_failure_swallowed wBodyRaises wStocks 0 "fetch failed"
    (by decide) rfl
  refine ⟨h.1, by decide, by decide, ?_, h.2.2.2.2 5 5 (by decide) rfl⟩
  have := h.2.2.2.1
  simpa [wStocks] using this

/-- C7 counterexample: `analyze_strategy` performs no input validation.
On a 3-row series whose dates are not increasing it raises nothing and
returns a complete 3-record sequence, contradicting "InvalidInput error,
no partial SignalRecord sequence returned"; an empty series likewise
returns an empty frame without error. -/
theorem C7_counterexample :
    wRowsNonMono.map Row.date = [5, 3, 4] ∧
    ¬ ((5 : ℤ) < 3) ∧
    (analyze_strategy wRowsNonMono).length = 3 ∧
    analyze_strategy wRowsNonMono ≠ [] ∧
    analyze_strategy [] = [] := by
  refine ⟨by decide, by decide, by decide, by decide, rfl⟩

theorem runFrom_map_date (s : StrategyState) (l : List CRow) :
    (runFrom s l).map SignalRecord.date = l.map CRow.date := by
  induction l generalizing s with
  | nil => rfl
  | cons r rs ih => simp [runFrom, step, ih]

/-- C7 (amended): `analyze_strategy` validates nothing: for every input
series — empty, gapped or date-disordered — it totally computes one record
per input row, passing the dates through positionally.  (A non-numeric
close column is not expressible in the typed model; pandas would raise a
`TypeError` from `diff`, not a structured InvalidInput error.) -/
theorem C7_no_validation (rows : List Row) :
    (analyze_strategy rows).length = rows.length ∧
    (analyze_strategy rows).map SignalRecord.date = rows.map Row.date := by
  constructor
  · rw [analyze_strategy, length_runFrom, classify_length]
  · rw [analyze_strategy, ← classify_map_date, runFrom_map_date]

/-- C9: `analyze_strategy` is deterministic — its output is a function of
the fed series' dates and closes alone.  The embedding is a pure function
(the source reads no clock and no randomness inside `analyze_strategy`),
so any two invocations on series carrying the same data produce identical
record sequences, field for field. -/
theorem C9_deterministic (s t : List Row)
    (hd : s.map Row.date = t.map Row.date)
    (hc : s.map Row.close = t.map Row.close) :
    analyze_strategy s = analyze_strategy t := by
  rw [rows_eq_of_proj s t hd hc]

/-- C9 witness: two syntactically different writings of the same one-row
series produce the same output. -/
theorem C9_deterministic_witness :
    analyze_strategy [⟨1, 10⟩] = analyze_strategy [⟨1, 5 + 5⟩] := by
  apply C9_deterministic <;> norm_num

/-- C2: a series shorter than 14 rows yields no signal and stays at stage
0 in every record; the stage-0 day counter equals the number of rows
consumed (one per row, irrespective of the rows' dates) for every prefix
up to 14 rows; and as soon as a 14th row exists, the record at index 13
(the 14th row) carries the Buy signal and stage 1. -/
theorem C2_short_series_stage0 (rows : List Row) :
    (rows.length < 14 →
      ∀ rec ∈ analyze_strategy rows, rec.signal = "" ∧ rec.stage = 0) ∧
    (∀ k, k ≤ rows.length → k ≤ 14 →
      (stateAfter initState ((classify rows).take k)).day_count = k) ∧
    (14 ≤ rows.length → ∃ rec, (analyze_strategy rows)[13]? = some rec ∧
      rec.signal = "买入" ∧ rec.stage = 1) := by
  have hcl : (classify rows).length = rows.length := classify_length rows
  refine ⟨?_, ?_, ?_⟩
  · intro hlen rec hrec
    have h := runFrom_stage0 (classify rows) initState rfl
      (by simp only [initState]; omega)
    have hmem : sigStage rec ∈ List.replicate (classify rows).length ("", 0) := by
      rw [← h.1]
      exact List.mem_map_of_mem _ hrec
    have heq := List.eq_of_mem_replicate hmem
    rw [sigStage, Prod.ext_iff] at heq
    exact heq
  · intro k hk h14
    by_cases hk13 : k ≤ 13
    · have h := runFrom_stage0 ((classify rows).take k) initState rfl
        (by simp only [initState, List.length_take]; omega)
      rw [h.2]
      simp only [initState, List.length_take]
      omega
    · have hk14 : k = 14 := by omega
      subst hk14
      have h13 : 13 < (classify rows).length := by omega
      have hmin : min 13 (classify rows).length = 13 := by omega
      rw [List.take_succ, List.getElem?_eq_getElem h13, stateAfter_append]
      have h := runFrom_stage0 ((classify rows).take 13) initState rfl
        (by simp only [initState, List.length_take]; omega)
      rw [h.2]
      simp [stateAfter, stepState, step, stepCore, initState, List.length_take, hmin]
  · intro h14
    have h13 : 13 < (classify rows).length := by omega
    have hmin : min 13 (classify rows).length = 13 := by omega
    rw [analyze_strategy, runFrom_getElem?, List.getElem?_eq_getElem h13]
    have h := runFrom_stage0 ((classify rows).take 13) initState rfl
      (by simp only [initState, List.length_take]; omega)
    rw [Option.map_some', h.2]
    refine ⟨_, rfl, ?_, ?_⟩ <;>
      simp [step, stepCore, initState, List.length_take, hmin]

/-- C2 witness: a 5-row series reaches the first record with no signal at
stage 0; a 16-row series has day counter 14 after 14 rows and carries the
Buy/stage-1 record at index 13. -/
theorem C2_short_series_stage0_witness :
    ((⟨1, 10, Dir.flat, "", "空仓", 0, 0, 0⟩ : SignalRecord).signal = "" ∧
     (⟨1, 10, Dir.flat, "", "空仓", 0, 0, 0⟩ : SignalRecord).stage = 0) ∧
    (stateAfter initState ((classify wRows16).take 14)).day_count = 14 ∧
    (∃ rec, (analyze_strategy wRows16)[13]? = some rec ∧
      rec.signal = "买入" ∧ rec.stage = 1) := by
  refine ⟨(C2_short_series_stage0 wRows5).1 (by decide) _ (by decide),
    (C2_short_series_stage0 wRows16).2.1 14 (by decide) (by decide),
    (C2_short_series_stage0 wRows16).2.2 (by decide)⟩

/-- C8: stage 7 is absorbing.  If the record at index `i` shows stage 7,
then every later record shows stage 7, an empty signal, and the Holding
position. -/
theorem C8_stage7_absorbing (rows : List Row) (i j : ℕ) (ri rj : SignalRecord)
    (hij : i < j)
    (hi : (analyze_strategy rows)[i]? = some ri)
    (hj : (analyze_strategy rows)[j]? = some rj)
    (h7 : ri.stage = 7) :
    rj.stage = 7 ∧ rj.signal = "" ∧ rj.position = "持有" := by
  rw [analyze_strategy, runFrom_getElem?] at hi hj
  cases hgi : (classify rows)[i]? with
  | none => rw [hgi] at hi; cases hi
  | some xi =>
  cases hgj : (classify rows)[j]? with
  | none => rw [hgj] at hj; cases hj
  | some xj =>
  rw [hgi, Option.map_some'] at hi
  rw [hgj, Option.map_some'] at hj
  have hri : (step (stateAfter initState ((classify rows).take i)) xi).2 = ri :=
    Option.some.inj hi
  have hrj : (step (stateAfter initState ((classify rows).take j)) xj).2 = rj :=
    Option.some.inj hj
  have hpost : stateAfter initState ((classify rows).take (i + 1)) =
      stepState (stateAfter initState ((classify rows).take i)) xi := by
    rw [List.take_succ, hgi, stateAfter_append]
    rfl
  have hstage : (stateAfter initState ((classify rows).take (i + 1))).stage = 7 := by
    rw [hpost]
    have : ri.stage = (stepState (stateAfter initState ((classify rows).take i)) xi).stage := by
      rw [← hri]
      rfl
    rw [← this, h7]
  have hinv : Inv (stateAfter initState ((classify rows).take (i + 1))) :=
    inv_stateAfter _ _ inv_initState
  have hsj : stateAfter initState ((classify rows).take j) =
      stateAfter initState ((classify rows).take (i + 1)) := by
    have htake : (classify rows).take j =
        (classify rows).take (i + 1) ++ (((classify rows).drop (i + 1)).take (j - (i + 1))) := by
      rw [← List.take_add]
      congr 1
      omega
    rw [htake, stateAfter_append, stateAfter_of_stage7 _ _ hstage]
  rw [hsj] at hrj
  have hpos : (stateAfter initState ((classify rows).take (i + 1))).position = some "持有" := by
    rw [Inv, posFor] at hinv
    rw [hinv, hstage]
    rfl
  have hc := stepCore_of_ge7 (stateAfter initState ((classify rows).take (i + 1))) xj
    (by omega)
  rw [← hrj]
  simp [step, hc, hstage, hpos]

/-- C8 witness: on the 52-row series, the stage-7 buy record sits at index
49; the record at index 50 shows stage 7, no signal and the Holding
position. -/
theorem C8_stage7_absorbing_witness :
    (⟨51, 5, Dir.red, "", "持有", 7, 7, 14⟩ : SignalRecord).stage = 7 ∧
    (⟨51, 5, Dir.red, "", "持有", 7, 7, 14⟩ : SignalRecord).signal = "" ∧
    (⟨51, 5, Dir.red, "", "持有", 7, 7, 14⟩ : SignalRecord).position = "持有" :=
  C8_stage7_absorbing wRows 49 50 ⟨50, 0, Dir.green, "买入", "持有", 7, 7, 14⟩
    ⟨51, 5, Dir.red, "", "持有", 7, 7, 14⟩ (by omega) (by decide) (by decide) rfl

theorem record_inv (s : StrategyState) (l : List CRow) (hs : Inv s)
    (rec : SignalRecord) (hrec : rec ∈ runFrom s l) :
    (rec.position = "持有" ↔ rec.stage % 2 = 1) ∧
    (rec.position = "空仓" ↔ rec.stage % 2 = 0) := by
  induction l generalizing s with
  | nil => cases hrec
  | cons r rs ih =>
    rcases List.mem_cons.mp hrec with rfl | hmem
    · have hinv' : Inv (stepState s r) := inv_stepState s r hs
      rw [Inv, posFor] at hinv'
      simp only [stepState] at hinv'
      have hne : ("持有" : String) ≠ "空仓" := by decide
      by_cases hp : (step s r).1.stage % 2 = 1
      · rw [if_pos hp] at hinv'
        constructor
        · show ((step s r).1.position).getD "空仓" = "持有" ↔ (step s r).1.stage % 2 = 1
          rw [hinv']
          simp [hp]
        · show ((step s r).1.position).getD "空仓" = "空仓" ↔ (step s r).1.stage % 2 = 0
          rw [hinv']
          simp only [Option.getD_some]
          constructor
          · intro h
            exact absurd h hne
          · intro h
            omega
      · rw [if_neg hp] at hinv'
        constructor
        · show ((step s r).1.position).getD "空仓" = "持有" ↔ (step s r).1.stage % 2 = 1
          rw [hinv']
          simp only [Option.getD_none]
          constructor
          · intro h
            exact absurd h.symm hne
          · intro h
            exact absurd h hp
        · show ((step s r).1.position).getD "空仓" = "空仓" ↔ (step s r).1.stage % 2 = 0
          rw [hinv']
          simp only [Option.getD_none, true_iff]
          omega
    · exact ih (stepState s r) (inv_stepState s r hs) hmem

/-- C10: in every record `analyze_strategy` emits, the displayed position
is `'持有'` exactly at the odd stages 1, 3, 5, 7 and `'空仓'` exactly at the
even stages 0, 2, 4, 6 — the two fields never disagree — and every
stage/position combination guarding a `generate_prediction` branch is
realised by some reachable terminal state. -/
theorem C10_position_stage_invariant :
    (∀ (rows : List Row) (rec : SignalRecord), rec ∈ analyze_strategy rows →
      ((rec.position = "持有" ↔ rec.stage % 2 = 1) ∧
       (rec.position = "空仓" ↔ rec.stage % 2 = 0))) ∧
    (∀ st : ℕ, st ≤ 7 → ∃ rows : List Row,
      ((generate_prediction (analyze_strategy rows)).map fun p =>
        (p.stage, p.position)) =
          some (st, if st % 2 = 1 then "持有" else "空仓")) := by
  constructor
  · intro rows rec hrec
    exact record_inv initState (classify rows) inv_initState rec hrec
  · intro st hst
    interval_cases st
    · exact ⟨wRows.take 5, by decide⟩
    · exact ⟨wRows.take 14, by decide⟩
    · exact ⟨wRows.take 17, by decide⟩
    · exact ⟨wRows.take 19, by decide⟩
    · exact ⟨wRows.take 22, by decide⟩
    · exact ⟨wRows.take 29, by decide⟩
    · exact ⟨wRows.take 36, by decide⟩
    · exact ⟨wRows.take 50, by decide⟩

/-- C10 witness: the buy record of a 16-row flat series (stage 1, Holding)
satisfies the invariant, and stage 7 with the Holding position is realised
by a reachable terminal state. -/
theorem C10_position_stage_invariant_witness :
    (((⟨14, 10, Dir.flat, "买入", "持有", 1, 0, 0⟩ : SignalRecord).position = "持有" ↔
        (⟨14, 10, Dir.flat, "买入", "持有", 1, 0, 0⟩ : SignalRecord).stage % 2 = 1) ∧
     ((⟨14, 10, Dir.flat, "买入", "持有", 1, 0, 0⟩ : SignalRecord).position = "空仓" ↔
        (⟨14, 10, Dir.flat, "买入", "持有", 1, 0, 0⟩ : SignalRecord).stage % 2 = 0)) ∧
    (∃ rows : List Row,
      ((generate_prediction (analyze_strategy rows)).map fun p =>
        (p.stage, p.position)) = some (7, if 7 % 2 = 1 then "持有" else "空仓")) :=
  ⟨C10_position_stage_invariant.1 wRows16 ⟨14, 10, Dir.flat, "买入", "持有", 1, 0, 0⟩
    (by decide), C10_position_stage_invariant.2 7 (by omega)⟩

theorem map_dir_eq_three {l : List CRow} {d1 d2 d3 : Dir}
    (h : l.map CRow.dir = [d1, d2, d3]) :
    ∃ a b c, l = [a, b, c] ∧ a.dir = d1 ∧ b.dir = d2 ∧ c.dir = d3 := by
  cases l with
  | nil => cases h
  | cons a l1 =>
    cases l1 with
    | nil => simp at h
    | cons b l2 =>
      cases l2 with
      | nil => simp at h
      | cons c l3 =>
        cases l3 with
        | cons x t => simp at h
        | nil =>
          simp only [List.map_cons, List.map_nil, List.cons.injEq, and_true] at h
          exact ⟨a, b, c, rfl, h.1, h.2.1, h.2.2⟩

theorem map_dir_eq_pair {l : List CRow} {d1 d2 : Dir}
    (h : l.map CRow.dir = [d1, d2]) :
    ∃ a b, l = [a, b] ∧ a.dir = d1 ∧ b.dir = d2 := by
  cases l with
  | nil => cases h
  | cons a l1 =>
    cases l1 with
    | nil => simp at h
    | cons b l2 =>
      cases l2 with
      | cons x t => simp at h
      | nil =>
        simp only [List.map_cons, List.map_nil, List.cons.injEq, and_true] at h
        exact ⟨a, b, rfl, h.1, h.2⟩

/-- C1: on any 30-row series whose first 14 derived directions contain no
up day, followed by 3 up days, then 2 down days, then 11 further non-up
days, the machine emits exactly Buy at row 14 (index 13), Sell at row 17
(index 16) and Buy at row 19 (index 18); the recorded stage is 0 on rows
1–13, 1 on rows 14–16, 2 on rows 17–18 and 3 from row 19 on, and no other
signal is emitted.  (The claim describes the 30-day series by its first
19 engineered days; the remaining 11 days are engineered not to contain an
up day, which is what "no other signal emitted" requires.) -/
theorem C1_engineered_series (rows : List Row) (hlen : rows.length = 30)
    (h1 : ∀ d ∈ ((classify rows).map CRow.dir).take 14, d ≠ Dir.red)
    (h2 : (((classify rows).map CRow.dir).drop 14).take 3 =
      [Dir.red, Dir.red, Dir.red])
    (h3 : (((classify rows).map CRow.dir).drop 17).take 2 = [Dir.green, Dir.green])
    (h4 : ∀ d ∈ ((classify rows).map CRow.dir).drop 19, d ≠ Dir.red) :
    (analyze_strategy rows).map sigStage =
      List.replicate 13 ("", 0) ++ [("买入", 1)] ++ List.replicate 2 ("", 1) ++
        [("卖出", 2)] ++ [("", 2)] ++ [("买入", 3)] ++ List.replicate 11 ("", 3) := by
  have hclen : (classify rows).length = 30 := by rw [classify_length, hlen]
  have h13 : 13 < (classify rows).length := by omega
  have h2' : (((classify rows).drop 14).take 3).map CRow.dir =
      [Dir.red, Dir.red, Dir.red] := by
    rw [List.map_take, List.map_drop]
    exact h2
  have h3' : (((classify rows).drop 17).take 2).map CRow.dir =
      [Dir.green, Dir.green] := by
    rw [List.map_take, List.map_drop]
    exact h3
  obtain ⟨a, b, c, hM3, hda, hdb, hdc⟩ := map_dir_eq_three h2'
  obtain ⟨d, e, hM2, hdd, hde⟩ := map_dir_eq_pair h3'
  have e3 : (classify rows).drop 14 = [a, b, c] ++ (classify rows).drop 17 := by
    conv_lhs => rw [← List.take_append_drop 3 ((classify rows).drop 14)]
    rw [hM3, List.drop_drop]
  have e4 : (classify rows).drop 17 = [d, e] ++ (classify rows).drop 19 := by
    conv_lhs => rw [← List.take_append_drop 2 ((classify rows).drop 17)]
    rw [hM2, List.drop_drop]
  have hdecomp : classify rows =
      (classify rows).take 13 ++ ((classify rows).get ⟨13, h13⟩ ::
        ([a, b, c] ++ ([d, e] ++ (classify rows).drop 19))) := by
    conv_lhs => rw [← List.take_append_drop 13 (classify rows)]
    rw [List.drop_eq_getElem_cons h13, e3, e4]
    rfl
  have h0 := runFrom_stage0 ((classify rows).take 13) initState rfl
    (by simp only [initState, List.length_take]; omega)
  have hlen13 : ((classify rows).take 13).length = 13 := by
    rw [List.length_take]
    omega
  have hs1 : stateAfter initState ((classify rows).take 13) = ⟨none, 0, 13, 0, 0, 0⟩ := by
    rw [h0.2, hlen13]
    simp [initState]
  have htail : (runFrom ⟨some "持有", e.close, 14, 0, 2, 3⟩
      ((classify rows).drop 19)).map sigStage = List.replicate 11 ("", 3) := by
    have ht := runFrom_stage3 ((classify rows).drop 19)
      ⟨some "持有", e.close, 14, 0, 2, 3⟩ rfl rfl ?_
    · rw [ht, List.length_drop, hclen]
    · intro r hr
      have hmem : r.dir ∈ ((classify rows).map CRow.dir).drop 19 := by
        rw [← List.map_drop]
        exact List.mem_map_of_mem _ hr
      exact h4 _ hmem
  rw [analyze_strategy, hdecomp, runFrom_append, List.map_append, h0.1, hlen13, hs1]
  simp only [List.cons_append, List.append_assoc, List.nil_append]
  simp [runFrom, step, stepCore, hda, hdb, hdc, hdd, hde, sigStage, htail,
    List.replicate_succ]

/-- C1 witness: the concrete engineered 30-day series (14 flat days, 3 up
days, 2 down days, 11 flat days) produces exactly the claimed signal and
stage trace. -/
theorem C1_engineered_series_witness :
    (analyze_strategy wRows30).map sigStage =
      List.replicate 13 ("", 0) ++ [("买入", 1)] ++ List.replicate 2 ("", 1) ++
        [("卖出", 2)] ++ [("", 2)] ++ [("买入", 3)] ++ List.replicate 11 ("", 3) :=
  C1_engineered_series wRows30 (by decide) (by decide) (by decide) (by decide)
    (by decide)

end Baxiaoyz
